import Mathlib

/-!
Verification of the image upload/delete service (`src/services/imageService.ts`,
`src/controllers/imageController.ts`).

The service orchestrates two external backends per request: a blob store
(Google Cloud Storage bucket) and a metadata store (prisma `image` table).
We embed each operation as a pure function from an explicit environment
(outcomes of the external calls, the `Date.now()` clock, the
`GCS_BUCKET_NAME` configuration value) and a metadata-store state to a
result, the new store state, and the trace of external calls attempted.
-/

/-! ### JavaScript string primitives used by the service -/

/-- JavaScript `s.split(sep)` on a list of characters: splits at every
occurrence of `sep`; the result is always non-empty, and empty segments are
kept (`"a//b"` gives `["a", "", "b"]`, `""` gives `[""]`). -/
def splitChar (sep : Char) : List Char → List (List Char)
  | [] => [[]]
  | a :: rest =>
    match splitChar sep rest with
    | [] => [[]]
    | h :: t => if a = sep then [] :: h :: t else (a :: h) :: t

/-- JavaScript `s.split(sep).pop()`: the last segment produced by `split`.
`split` never returns an empty array, so `pop` always yields a string
(possibly empty). Used by `deleteImage` to recover the object key from the
stored URL (`image.url.split('/').pop()`). -/
def jsSplitPop (sep : Char) (s : String) : String :=
  String.mk ((splitChar sep s.data).getLastD [])

/-- Node `path.extname(p)`: the extension of the final path segment, from its
last `.` to the end; no extension when the segment has no `.`, when its only
`.` is the leading character (dotfiles such as `.bashrc`), or when the
segment is `.` or `..`. -/
def extname (s : String) : String :=
  let b := (splitChar '/' s.data).getLastD []
  if b = ['.'] ∨ b = ['.', '.'] then ""
  else
    let pre := b.reverse.takeWhile (fun c => ¬ c = '.')
    if pre.length + 1 < b.length then String.mk ('.' :: pre.reverse)
    else ""

/-- Decimal rendering of a natural number, digit characters most significant
first: the embedding of the JavaScript template `${Date.now()}` (an integer
interpolates as its decimal digits). Bounded recursion on a fuel argument;
`natToDec` supplies fuel `n + 1`, always sufficient, as the round-trip
theorem `decodeDec_natToDec` certifies. -/
def natToDecAux : Nat → Nat → List Char
  | 0, _ => []
  | fuel + 1, n =>
    if n < 10 then [Nat.digitChar n]
    else natToDecAux fuel (n / 10) ++ [Nat.digitChar (n % 10)]

/-- Decimal digit string of `n`, as interpolated by `${n}` in JavaScript. -/
def natToDec (n : Nat) : List Char :=
  natToDecAux (n + 1) n

/-- Reads a digit string back as a number (proof device for injectivity of
`natToDec`). -/
def decodeDec (l : List Char) : Nat :=
  l.foldl (fun a c => 10 * a + (c.toNat - 48)) 0

/-! ### Data model -/

/-- The multer in-memory file handed to `uploadImage` (the fields the
service reads: `originalname`, `mimetype`, `buffer`). -/
structure MulterFile where
  originalname : String
  mimetype : String
  buffer : List Nat
deriving DecidableEq

/-- A row of the prisma `image` table (= the service's `UploadResult`):
`id` assigned by the store, `name` the client filename, `url` the public
address of the blob, `createdAt` the store-assigned creation stamp. -/
structure Image where
  id : Int
  name : String
  url : String
  createdAt : Nat
deriving DecidableEq

/-- The metadata store: the rows of the `image` table plus the
autoincrement counter backing `id` assignment. -/
structure Db where
  rows : List Image
  nextId : Int
deriving DecidableEq

/-- One attempted call to an external backend (blob store or metadata
store), recorded in the order the service issues them. -/
inductive Call where
  | blobSave (key : String)
  | blobDelete (key : String)
  | dbCreate (name url : String)
  | dbFindMany
  | dbFindUnique (id : Int)
  | dbDelete (id : Int)
deriving DecidableEq

/-- Per-request environment: the `GCS_BUCKET_NAME` configuration value
(`none` when the variable is unset), the `Date.now()` reading, the
creation stamp the metadata store would assign, and the outcome of each
external call the request may attempt (`true` = the call succeeds,
`false` = the backend raises). -/
structure Env where
  bucketName : Option String
  now : Nat
  dbNow : Nat
  saveOk : Bool
  blobDeleteOk : String → Bool
  dbCreateOk : Bool
  dbFindOk : Bool
  dbDeleteOk : Bool

/-- Decidable equality of `Except` values, so concrete runs can be checked
by `decide`. -/
instance instDecEqExcept {ε α : Type} [DecidableEq ε] [DecidableEq α] :
    DecidableEq (Except ε α) := fun a b =>
  match a, b with
  | .error e, .error f =>
    if h : e = f then .isTrue (congrArg Except.error h)
    else .isFalse (fun he => h (Except.error.inj he))
  | .error _, .ok _ => .isFalse Except.noConfusion
  | .ok _, .error _ => .isFalse Except.noConfusion
  | .ok x, .ok y =>
    if h : x = y then .isTrue (congrArg Except.ok h)
    else .isFalse (fun he => h (Except.ok.inj he))

/-- Outcome of one service operation: the value returned or the message of
the error thrown, the metadata store afterwards, and the trace of external
calls attempted. -/
structure Outcome (α : Type) where
  res : Except String α
  db : Db
  calls : List Call
deriving DecidableEq

/-- The object key derived on upload: `${Date.now()}${path.extname(file.originalname)}`. -/
def uploadFileName (now : Nat) (originalname : String) : String :=
  String.mk (natToDec now) ++ extname originalname

/-- The public URL template:
`https://storage.googleapis.com/${bucket.name}/${blob.name}`. Pure; no
I/O and no failure mode. -/
def publicUrl (bucket fileName : String) : String :=
  "https://storage.googleapis.com/" ++ bucket ++ "/" ++ fileName

/-- `prisma.image.findUnique({ where: { id } })` on the store state. -/
def findRow (db : Db) (id : Int) : Option Image :=
  db.rows.find? (fun r => r.id = id)

/-- `prisma.image.findMany({ orderBy: { createdAt: 'desc' } })`: the rows
sorted newest first. The metadata store is an external collaborator; its
contract (spec section 4.2) is a stable sort by `createdAt` descending,
embedded here as an insertion sort under the relation
`b.createdAt ≤ a.createdAt`. -/
def sortDesc (rows : List Image) : List Image :=
  List.insertionSort (fun a b => b.createdAt ≤ a.createdAt) rows

/-! ### The service operations (`ImageService`)

Each mirrors the TypeScript method: a single `try` block whose `catch`
logs and rethrows a generic `Error`, so every internal failure surfaces as
the operation's one generic message. -/

/-- `ImageService.uploadImage(file)`: check the bucket configuration
(`getBucket`), derive the object key from `Date.now()` and the original
extension, `blob.save` the bytes, build the public URL, then
`prisma.image.create` the row. Any failure is rethrown as
`Failed to upload image`. -/
def uploadImage (env : Env) (db : Db) (file : MulterFile) : Outcome Image :=
  match env.bucketName with
  | none => ⟨.error "Failed to upload image", db, []⟩
  | some bucket =>
    let fileName := uploadFileName env.now file.originalname
    if env.saveOk then
      let url := publicUrl bucket fileName
      if env.dbCreateOk then
        let img : Image := ⟨db.nextId, file.originalname, url, env.dbNow⟩
        ⟨.ok img, ⟨db.rows ++ [img], db.nextId + 1⟩,
          [.blobSave fileName, .dbCreate file.originalname url]⟩
      else
        ⟨.error "Failed to upload image", db,
          [.blobSave fileName, .dbCreate file.originalname url]⟩
    else ⟨.error "Failed to upload image", db, [.blobSave fileName]⟩

/-- `ImageService.getAllImages()`: one `findMany` ordered by `createdAt`
descending; a store failure is rethrown as `Failed to fetch images`. -/
def getAllImages (env : Env) (db : Db) : Outcome (List Image) :=
  if env.dbFindOk then ⟨.ok (sortDesc db.rows), db, [.dbFindMany]⟩
  else ⟨.error "Failed to fetch images", db, [.dbFindMany]⟩

/-- `ImageService.getImageById(id)`: one `findUnique`; returns `null`
(`none`) when the row is absent; a store failure is rethrown as
`Failed to fetch image`. -/
def getImageById (env : Env) (db : Db) (id : Int) : Outcome (Option Image) :=
  if env.dbFindOk then ⟨.ok (findRow db id), db, [.dbFindUnique id]⟩
  else ⟨.error "Failed to fetch image", db, [.dbFindUnique id]⟩

/-- `ImageService.deleteImage(id)`: check the bucket configuration, look
the row up, recover the object key as `image.url.split('/').pop()`, delete
the blob when that key is truthy (non-empty), then delete the row. The
whole body sits in one `try`/`catch`, so any failure — including a failed
blob deletion — aborts the remaining steps and is rethrown as
`Failed to delete image`. -/
def deleteImage (env : Env) (db : Db) (id : Int) : Outcome Unit :=
  match env.bucketName with
  | none => ⟨.error "Failed to delete image", db, []⟩
  | some _bucket =>
    if env.dbFindOk then
      match findRow db id with
      | none => ⟨.error "Failed to delete image", db, [.dbFindUnique id]⟩
      | some image =>
        let fileName := jsSplitPop '/' image.url
        if fileName = "" then
          if env.dbDeleteOk then
            ⟨.ok (), ⟨db.rows.filter (fun r => ¬ r.id = id), db.nextId⟩,
              [.dbFindUnique id, .dbDelete id]⟩
          else ⟨.error "Failed to delete image", db, [.dbFindUnique id, .dbDelete id]⟩
        else
          if env.blobDeleteOk fileName then
            if env.dbDeleteOk then
              ⟨.ok (), ⟨db.rows.filter (fun r => ¬ r.id = id), db.nextId⟩,
                [.dbFindUnique id, .blobDelete fileName, .dbDelete id]⟩
            else
              ⟨.error "Failed to delete image", db,
                [.dbFindUnique id, .blobDelete fileName, .dbDelete id]⟩
          else
            ⟨.error "Failed to delete image", db,
              [.dbFindUnique id, .blobDelete fileName]⟩
    else ⟨.error "Failed to delete image", db, [.dbFindUnique id]⟩

/-! ### The controller layer (`ImageController`), id parsing -/

/-- The JavaScript `WhiteSpace`/`LineTerminator` characters `parseInt`
skips (the ASCII ones; the Unicode spaces are irrelevant to route
parameters). -/
def isJsSpace (c : Char) : Bool :=
  c = ' ' ∨ c = '\t' ∨ c = '\n' ∨ c = '\r' ∨ c = '\x0b' ∨ c = '\x0c'

/-- Value of a decimal digit character, `none` otherwise. -/
def decDigit (c : Char) : Option Nat :=
  if '0' ≤ c ∧ c ≤ '9' then some (c.toNat - 48) else none

/-- Value of a hexadecimal digit character, `none` otherwise. -/
def hexDigit (c : Char) : Option Nat :=
  if '0' ≤ c ∧ c ≤ '9' then some (c.toNat - 48)
  else if 'a' ≤ c ∧ c ≤ 'f' then some (c.toNat - 87)
  else if 'A' ≤ c ∧ c ≤ 'F' then some (c.toNat - 55)
  else none

/-- Accumulates the longest digit prefix of `l` under digit reader `d`
and base `base`, starting from `acc`. -/
def takeDigits (d : Char → Option Nat) (base : Nat) : List Char → Nat → Nat
  | [], acc => acc
  | c :: cs, acc =>
    match d c with
    | some v => takeDigits d base cs (base * acc + v)
    | none => acc

/-- JavaScript `parseInt(s)` (no radix argument): skip leading whitespace,
read an optional sign, then — when the remainder starts with `0x`/`0X` —
read hexadecimal digits, otherwise decimal digits; the longest such prefix
is the value, and `NaN` (here `none`) results when no digit follows.
Values are modelled exactly (the ids at stake fit well below 2^53). -/
def jsParseInt (s : String) : Option Int :=
  let t := s.data.dropWhile (fun c => isJsSpace c)
  let sign : Int := match t with
    | '-' :: _ => -1
    | _ => 1
  let t := match t with
    | '-' :: rest => rest
    | '+' :: rest => rest
    | _ => t
  match t with
  | '0' :: x :: rest =>
    if x = 'x' ∨ x = 'X' then
      match rest with
      | [] => none
      | c :: _ =>
        match hexDigit c with
        | some _ => some (sign * (takeDigits hexDigit 16 rest 0 : Nat))
        | none => none
    else some (sign * (takeDigits decDigit 10 ('0' :: x :: rest) 0 : Nat))
  | c :: cs =>
    match decDigit c with
    | some _ => some (sign * (takeDigits decDigit 10 (c :: cs) 0 : Nat))
    | none => none
  | [] => none

/-- What the claim's words call the integer formed by the leading
characters of the id parameter: an optional sign followed by the longest
non-empty run of decimal digits. Stated from the claim, for comparison
with `jsParseInt`. -/
def leadingIntVal (s : String) : Option Int :=
  let sign : Int := match s.data with
    | '-' :: _ => -1
    | _ => 1
  let t := match s.data with
    | '-' :: rest => rest
    | '+' :: rest => rest
    | _ => s.data
  match t with
  | c :: cs =>
    match decDigit c with
    | some _ => some (sign * (takeDigits decDigit 10 (c :: cs) 0 : Nat))
    | none => none
  | [] => none

/-- An HTTP outcome of a controller method: the response status, the
metadata store afterwards, and the external calls made. -/
structure CtrlResult where
  status : Nat
  db : Db
  calls : List Call
deriving DecidableEq

/-- `ImageController.getImageById`: `parseInt` the path parameter, 400 on
`NaN`, otherwise call the service — 500 when it throws, 404 on `null`,
200 otherwise. -/
def getImageByIdCtrl (env : Env) (db : Db) (idParam : String) : CtrlResult :=
  match jsParseInt idParam with
  | none => ⟨400, db, []⟩
  | some id =>
    let o := getImageById env db id
    match o.res with
    | .error _ => ⟨500, o.db, o.calls⟩
    | .ok none => ⟨404, o.db, o.calls⟩
    | .ok (some _) => ⟨200, o.db, o.calls⟩

/-- `ImageController.deleteImage`: `parseInt` the path parameter, 400 on
`NaN`, otherwise call the service — 500 when it throws, 200 otherwise. -/
def deleteImageCtrl (env : Env) (db : Db) (idParam : String) : CtrlResult :=
  match jsParseInt idParam with
  | none => ⟨400, db, []⟩
  | some id =>
    let o := deleteImage env db id
    match o.res with
    | .error _ => ⟨500, o.db, o.calls⟩
    | .ok _ => ⟨200, o.db, o.calls⟩

/-! ### Properties of the string primitives -/

/-- `split` never returns an empty array (JavaScript guarantees at least
one segment). -/
theorem splitChar_ne_nil (sep : Char) (l : List Char) : splitChar sep l ≠ [] := by
  induction l with
  | nil => simp [splitChar]
  | cons a rest ih =>
    rw [splitChar]
    rcases hs : splitChar sep rest with _ | ⟨h, t⟩
    · simp
    · by_cases hc : a = sep <;> simp [hc]

/-- A string free of the separator splits into the single segment that is
the whole string. -/
theorem splitChar_of_not_mem {sep : Char} {l : List Char} (h : sep ∉ l) :
    splitChar sep l = [l] := by
  induction l with
  | nil => rfl
  | cons a rest ih =>
    rw [splitChar, ih (fun hm => h (List.mem_cons_of_mem a hm))]
    have ha : ¬ a = sep := fun he => h (he ▸ List.mem_cons_self a rest)
    simp [ha]

/-- A string containing the separator splits into at least two segments. -/
theorem two_le_length_splitChar {sep : Char} {l : List Char} (h : sep ∈ l) :
    2 ≤ (splitChar sep l).length := by
  induction l with
  | nil => cases h
  | cons a rest ih =>
    rw [splitChar]
    rcases hs : splitChar sep rest with _ | ⟨hd, tl⟩
    · exact absurd hs (splitChar_ne_nil sep rest)
    · by_cases hc : a = sep
      · simp [hc]
      · have hm : sep ∈ rest := by
          rcases List.mem_cons.mp h with he | hm
          · exact absurd he.symm hc
          · exact hm
        have := ih hm
        rw [hs] at this
        simpa [hc] using this

/-- The last segment of `p ++ sep :: key` is `key` whenever `key` is free
of the separator. -/
theorem getLastD_splitChar_append {sep : Char} (p : List Char) {key : List Char}
    (h : sep ∉ key) :
    (splitChar sep (p ++ sep :: key)).getLastD [] = key := by
  induction p with
  | nil =>
    rw [List.nil_append, splitChar, splitChar_of_not_mem h]
    simp
  | cons a p ih =>
    rw [List.cons_append, splitChar]
    rcases hs : splitChar sep (p ++ sep :: key) with _ | ⟨hd, tl⟩
    · exact absurd hs (splitChar_ne_nil sep _)
    · have hmem : sep ∈ p ++ sep :: key :=
        List.mem_append_right p (List.mem_cons_self sep key)
      have hlen : 2 ≤ (hd :: tl).length := hs ▸ two_le_length_splitChar hmem
      have htl : tl ≠ [] := by
        intro he
        rw [he] at hlen
        simp at hlen
      have hlast : (hd :: tl).getLastD [] = key := by rw [← hs]; exact ih
      rcases tl with _ | ⟨c, tl⟩
      · exact absurd rfl htl
      · by_cases hc : a = sep <;> simp_all [List.getLastD_cons]

/-- String append acts as list append on the character data. -/
theorem data_append_eq (s t : String) : (s ++ t).data = s.data ++ t.data := by
  cases s
  cases t
  rfl

/-- Decoding after appending one digit character. -/
theorem decodeDec_append (l : List Char) (c : Char) :
    decodeDec (l ++ [c]) = 10 * decodeDec l + (c.toNat - 48) := by
  simp [decodeDec, List.foldl_append]

/-- A decimal digit character decodes to its value. -/
theorem digitChar_toNat_sub {n : Nat} (h : n < 10) :
    (Nat.digitChar n).toNat - 48 = n := by
  interval_cases n <;> rfl

/-- The rendered digits decode back to the number (fuel version). -/
theorem decodeDec_natToDecAux :
    ∀ fuel n, n < fuel → decodeDec (natToDecAux fuel n) = n := by
  intro fuel
  induction fuel with
  | zero => intro n hn; cases hn
  | succ fuel ih =>
    intro n hn
    rw [natToDecAux]
    by_cases h10 : n < 10
    · simp [h10, decodeDec, digitChar_toNat_sub h10]
    · have hpos : 0 < n := by omega
      have hdiv : n / 10 < n := Nat.div_lt_self hpos (by omega)
      have hfuel : n / 10 < fuel := by omega
      rw [if_neg h10, decodeDec_append, ih (n / 10) hfuel,
        digitChar_toNat_sub (Nat.mod_lt n (by omega))]
      omega

/-- The decimal rendering decodes back to the number. -/
theorem decodeDec_natToDec (n : Nat) : decodeDec (natToDec n) = n :=
  decodeDec_natToDecAux (n + 1) n (Nat.lt_succ_self n)

/-- Decimal rendering is injective: different timestamps render to
different digit strings. -/
theorem natToDec_inj {a b : Nat} (h : natToDec a = natToDec b) : a = b := by
  have := decodeDec_natToDec a
  rw [h, decodeDec_natToDec b] at this
  exact this.symm

/-! ### C4 — key derivation across uploads -/

/-- C4 (counterexample): the claim says any two uploads of files sharing
an extension derive different object keys. `Date.now()` is non-decreasing
but not strictly increasing: two uploads inside the same millisecond read
the same clock value, and then two files sharing an extension derive the
same key — here two distinct files at clock value 1700000000000 both
derive the key `1700000000000.png`. -/
theorem c4_counterexample :
    uploadFileName 1700000000000 "a.png" = uploadFileName 1700000000000 "b.png" ∧
    extname "a.png" = extname "b.png" ∧ ¬ ("a.png" = "b.png") := by
  refine ⟨?_, by decide, by decide⟩
  simp only [uploadFileName]
  rw [show extname "a.png" = extname "b.png" from by decide]

/-- C4 (amended): for two uploads of files sharing an extension, the
derived object keys differ whenever the two calls observe distinct
`Date.now()` values; the decimal clock token is injective, so only two
uploads inside the same clock unit can collide. -/
theorem c4_keys_differ_when_clock_advances (t1 t2 : Nat) (n1 n2 : String)
    (hext : extname n1 = extname n2) (hne : ¬ t1 = t2) :
    ¬ uploadFileName t1 n1 = uploadFileName t2 n2 := by
  intro he
  apply hne
  apply natToDec_inj
  have hd := congrArg String.data he
  simp only [uploadFileName, hext, data_append_eq] at hd
  exact List.append_cancel_right hd

/-- C4 (witness): two uploads at clock values 1 and 2 with the shared
extension `.png` derive distinct keys. -/
theorem c4_witness : ¬ uploadFileName 1 "a.png" = uploadFileName 2 "b.png" :=
  c4_keys_differ_when_clock_advances 1 2 "a.png" "b.png" (by decide) (by decide)

/-! ### C5 — URL/key round trip -/

/-- C5: for every object key containing no `/`, building the public URL
from the bucket name and the key (`publicUrl`, a pure function) and then
taking the last path segment of that URL (`jsSplitPop`, exactly what
`deleteImage` computes) recovers the original key. -/
theorem c5_url_key_round_trip (bucket key : String) (h : ¬ '/' ∈ key.data) :
    jsSplitPop '/' (publicUrl bucket key) = key := by
  have hurl : (publicUrl bucket key).data
      = ("https://storage.googleapis.com/" ++ bucket).data ++ '/' :: key.data := by
    simp only [publicUrl, data_append_eq, List.append_assoc]
    rfl
  rw [jsSplitPop, hurl, getLastD_splitChar_append _ h]

/-- C5 (witness): the round trip at a concrete bucket and key. -/
theorem c5_witness :
    jsSplitPop '/' (publicUrl "my-bucket" "1712345678901.png") = "1712345678901.png" :=
  c5_url_key_round_trip "my-bucket" "1712345678901.png" (by decide)

/-! ### Concrete fixtures for counterexamples and witnesses -/

/-- A stored record whose URL points at the object key `1700.png`. -/
def imgPng : Image := ⟨1, "a.png", "https://storage.googleapis.com/bkt/1700.png", 5⟩

/-- A store holding exactly `imgPng`. -/
def dbOne : Db := ⟨[imgPng], 2⟩

/-- The empty store. -/
def emptyDb : Db := ⟨[], 1⟩

/-- A multer file named `a.png`. -/
def filePng : MulterFile := ⟨"a.png", "image/png", [1, 2, 3]⟩

/-- Environment where every external call succeeds. -/
def envAllOk : Env := ⟨some "bkt", 5, 1, true, fun _ => true, true, true, true⟩

/-- Environment where the blob-store `delete` raises. -/
def envBlobFail : Env := ⟨some "bkt", 5, 1, true, fun _ => false, true, true, true⟩

/-- Environment where the metadata-store `delete` raises. -/
def envDbDeleteFail : Env := ⟨some "bkt", 5, 1, true, fun _ => true, true, true, false⟩

/-- Environment where the blob-store `save` raises. -/
def envSaveFail : Env := ⟨some "bkt", 5, 1, false, fun _ => true, true, true, true⟩

/-- Environment with `GCS_BUCKET_NAME` unset. -/
def envNoBucket : Env := ⟨none, 5, 1, true, fun _ => true, true, true, true⟩

/-! ### C1 — delete after a failed blob deletion -/

/-- C1 (counterexample): the claim says a failed blob deletion still
proceeds to delete the metadata record. It does not: the whole method body
sits in one `try`/`catch`, so when the blob deletion raises, the `catch`
rethrows and `prisma.image.delete` is never reached — here the record is
still in the store, the metadata delete is absent from the call trace, and
the blob deletion was indeed attempted and failed. -/
theorem c1_counterexample :
    (deleteImage envBlobFail dbOne 1).res = .error "Failed to delete image" ∧
    (deleteImage envBlobFail dbOne 1).db.rows = [imgPng] ∧
    ¬ Call.dbDelete 1 ∈ (deleteImage envBlobFail dbOne 1).calls ∧
    Call.blobDelete "1700.png" ∈ (deleteImage envBlobFail dbOne 1).calls := by
  decide

/-- C1 (amended): when the blob deletion of an existing record's
(non-empty) object key fails, the delete operation does NOT proceed to the
metadata deletion: it fails as a whole with the generic error, the store
is left unchanged (the record survives), and no metadata delete is ever
attempted. -/
theorem c1_blob_failure_aborts_delete (env : Env) (db : Db) (id : Int)
    (img : Image) (b : String)
    (hb : env.bucketName = some b) (hfok : env.dbFindOk = true)
    (hfind : findRow db id = some img)
    (hfn : ¬ jsSplitPop '/' img.url = "")
    (hdel : env.blobDeleteOk (jsSplitPop '/' img.url) = false) :
    (deleteImage env db id).res = .error "Failed to delete image" ∧
    (deleteImage env db id).db = db ∧
    ¬ Call.dbDelete id ∈ (deleteImage env db id).calls ∧
    Call.blobDelete (jsSplitPop '/' img.url) ∈ (deleteImage env db id).calls := by
  simp [deleteImage, hb, hfok, hfind, hfn, hdel]

/-- C1 (witness): the amended statement at the concrete failing store. -/
theorem c1_witness :
    (deleteImage envBlobFail dbOne 1).res = .error "Failed to delete image" ∧
    (deleteImage envBlobFail dbOne 1).db = dbOne ∧
    ¬ Call.dbDelete 1 ∈ (deleteImage envBlobFail dbOne 1).calls ∧
    Call.blobDelete (jsSplitPop '/' imgPng.url) ∈ (deleteImage envBlobFail dbOne 1).calls :=
  c1_blob_failure_aborts_delete envBlobFail dbOne 1 imgPng "bkt" rfl rfl
    (by decide) (by decide) rfl

/-! ### C2 — upload after a failed blob write -/

/-- C2: when the blob write fails during upload, the operation fails as a
whole with the generic error, the metadata store is unchanged, and the
metadata-store create is never invoked — the only external call attempted
is the blob save. -/
theorem c2_blob_write_failure_no_record (env : Env) (db : Db)
    (file : MulterFile) (b : String)
    (hb : env.bucketName = some b) (hs : env.saveOk = false) :
    (uploadImage env db file).res = .error "Failed to upload image" ∧
    (uploadImage env db file).db = db ∧
    (uploadImage env db file).calls
      = [Call.blobSave (uploadFileName env.now file.originalname)] := by
  simp [uploadImage, hb, hs]

/-- C2 (witness): the statement at a concrete failing blob write. -/
theorem c2_witness :
    (uploadImage envSaveFail emptyDb filePng).res = .error "Failed to upload image" ∧
    (uploadImage envSaveFail emptyDb filePng).db = emptyDb ∧
    (uploadImage envSaveFail emptyDb filePng).calls
      = [Call.blobSave (uploadFileName envSaveFail.now filePng.originalname)] :=
  c2_blob_write_failure_no_record envSaveFail emptyDb filePng "bkt" rfl rfl

/-! ### C3 — deleting a non-existent id -/

/-- C3 (counterexample): the claim says the failure carries a
`RecordNotFound` signal distinguishable by the caller. It does not: the
service's `catch` rethrows the internal `Image not found` error as the
same generic `Failed to delete image` that a metadata-store failure
produces, and the controller maps both to HTTP 500 — the two outcomes are
identical, so the caller cannot distinguish them. (The zero-blob-operation
half of the claim does hold: the only call is the lookup.) -/
theorem c3_counterexample :
    (deleteImage envAllOk emptyDb 7).res = .error "Failed to delete image" ∧
    (deleteImage envDbDeleteFail dbOne 1).res = .error "Failed to delete image" ∧
    (deleteImageCtrl envAllOk emptyDb "7").status = 500 ∧
    (deleteImageCtrl envDbDeleteFail dbOne "1").status = 500 ∧
    (deleteImage envAllOk emptyDb 7).calls = [Call.dbFindUnique 7] := by
  decide

/-- C3 (amended): deleting an id with no record fails — with the generic
`Failed to delete image` error, indistinguishable from any other delete
failure (HTTP 500), not a dedicated not-found signal — and performs zero
blob-store operations: the lookup is the only external call, so no blob
delete is attempted, and the store is unchanged. -/
theorem c3_delete_missing_id (env : Env) (db : Db) (id : Int) (b : String)
    (hb : env.bucketName = some b) (hfok : env.dbFindOk = true)
    (hfind : findRow db id = none) :
    (deleteImage env db id).res = .error "Failed to delete image" ∧
    (deleteImage env db id).db = db ∧
    (deleteImage env db id).calls = [Call.dbFindUnique id] := by
  simp [deleteImage, hb, hfok, hfind]

/-- C3 (witness): the amended statement at the empty store. -/
theorem c3_witness :
    (deleteImage envAllOk emptyDb 7).res = .error "Failed to delete image" ∧
    (deleteImage envAllOk emptyDb 7).db = emptyDb ∧
    (deleteImage envAllOk emptyDb 7).calls = [Call.dbFindUnique 7] :=
  c3_delete_missing_id envAllOk emptyDb 7 "bkt" rfl rfl (by decide)

/-! ### C7 — missing bucket configuration -/

/-- C7: with `GCS_BUCKET_NAME` unset, upload and delete fail immediately
at `getBucket` — before any blob or metadata call (empty call trace,
store untouched) — while `getAll` and `getById` never consult the bucket:
they still succeed whenever the metadata store is reachable, and their
only external calls are metadata reads. The check lives inside each
operation (`getBucket` is called lazily), not at process start. -/
theorem c7_missing_bucket (env : Env) (db : Db) (file : MulterFile) (id : Int)
    (hb : env.bucketName = none) :
    uploadImage env db file = ⟨.error "Failed to upload image", db, []⟩ ∧
    deleteImage env db id = ⟨.error "Failed to delete image", db, []⟩ ∧
    (env.dbFindOk = true →
      (getAllImages env db).res = .ok (sortDesc db.rows) ∧
      (getImageById env db id).res = .ok (findRow db id)) ∧
    (getAllImages env db).calls = [Call.dbFindMany] ∧
    (getImageById env db id).calls = [Call.dbFindUnique id] ∧
    (getAllImages env db).db = db ∧
    (getImageById env db id).db = db := by
  refine ⟨by simp [uploadImage, hb], by simp [deleteImage, hb], ?_, ?_, ?_, ?_, ?_⟩
  · intro hf
    exact ⟨by simp [getAllImages, hf], by simp [getImageById, hf]⟩
  · cases hf : env.dbFindOk <;> simp [getAllImages, hf]
  · cases hf : env.dbFindOk <;> simp [getImageById, hf]
  · cases hf : env.dbFindOk <;> simp [getAllImages, hf]
  · cases hf : env.dbFindOk <;> simp [getImageById, hf]

/-- C7 (witness): the statement at the concrete bucket-less environment. -/
theorem c7_witness :
    uploadImage envNoBucket emptyDb filePng
      = ⟨.error "Failed to upload image", emptyDb, []⟩ ∧
    deleteImage envNoBucket emptyDb 1
      = ⟨.error "Failed to delete image", emptyDb, []⟩ ∧
    (getAllImages envNoBucket emptyDb).res = .ok (sortDesc emptyDb.rows) := by
  have h := c7_missing_bucket envNoBucket emptyDb filePng 1 rfl
  exact ⟨h.1, h.2.1, (h.2.2.1 rfl).1⟩

/-! ### C6 — getAll ordering -/

/-- The descending-`createdAt` relation is total. -/
instance : IsTotal Image (fun a b => b.createdAt ≤ a.createdAt) :=
  ⟨fun a b => Or.symm (Nat.le_total a.createdAt b.createdAt)⟩

/-- The descending-`createdAt` relation is transitive. -/
instance : IsTrans Image (fun a b => b.createdAt ≤ a.createdAt) :=
  ⟨fun _ _ _ hab hbc => Nat.le_trans hbc hab⟩

/-- Two pairwise properties hold together pairwise. -/
theorem pairwise_and_of {α : Type} {R S : α → α → Prop} :
    ∀ {l : List α}, l.Pairwise R → l.Pairwise S →
      l.Pairwise (fun a b => R a b ∧ S a b) := by
  intro l
  induction l with
  | nil => intro _ _; exact List.Pairwise.nil
  | cons a l ih =>
    intro hr hs
    rw [List.pairwise_cons] at hr hs ⊢
    exact ⟨fun b hb => ⟨hr.1 b hb, hs.1 b hb⟩, ih hr.2 hs.2⟩

/-- C6: whenever the metadata store is reachable, `getAll` returns exactly
the stored rows sorted by `createdAt` descending: a permutation of the
store that is pairwise non-increasing in `createdAt`, and strictly
decreasing whenever the stored timestamps are pairwise distinct (so
inserting A then B then C at increasing times yields `[C, B, A]` — see the
witness). -/
theorem c6_get_all_sorted_desc (env : Env) (db : Db)
    (hf : env.dbFindOk = true) :
    (getAllImages env db).res = .ok (sortDesc db.rows) ∧
    (sortDesc db.rows).Perm db.rows ∧
    (sortDesc db.rows).Pairwise (fun a b => b.createdAt ≤ a.createdAt) ∧
    (db.rows.Pairwise (fun a b => ¬ a.createdAt = b.createdAt) →
      (sortDesc db.rows).Pairwise (fun a b => b.createdAt < a.createdAt)) := by
  have hperm : (sortDesc db.rows).Perm db.rows :=
    List.perm_insertionSort (fun a b : Image => b.createdAt ≤ a.createdAt) db.rows
  have hle : (sortDesc db.rows).Pairwise (fun a b => b.createdAt ≤ a.createdAt) :=
    List.sorted_insertionSort (fun a b : Image => b.createdAt ≤ a.createdAt) db.rows
  refine ⟨by simp [getAllImages, hf], hperm, hle, ?_⟩
  intro hd
  have hd2 : (sortDesc db.rows).Pairwise (fun a b => ¬ a.createdAt = b.createdAt) :=
    (hperm.pairwise_iff (fun {x y} h he => h he.symm)).mpr hd
  exact (pairwise_and_of hle hd2).imp
    (fun h => Nat.lt_of_le_of_ne h.1 (fun he => h.2 he.symm))

/-- C6 (witness): uploading `a.png`, then `b.png`, then `c.png` at store
times 1, 2, 3 and then listing yields the three records newest first,
`[C, B, A]`, and the result is strictly descending in `createdAt`. -/
theorem c6_witness :
    (getAllImages envAllOk
        (uploadImage ⟨some "bkt", 5, 3, true, fun _ => true, true, true, true⟩
          (uploadImage ⟨some "bkt", 5, 2, true, fun _ => true, true, true, true⟩
            (uploadImage ⟨some "bkt", 5, 1, true, fun _ => true, true, true, true⟩
              emptyDb ⟨"a.png", "image/png", []⟩).db
            ⟨"b.png", "image/png", []⟩).db
          ⟨"c.png", "image/png", []⟩).db).res
      = .ok
        [⟨3, "c.png", publicUrl "bkt" (uploadFileName 5 "c.png"), 3⟩,
         ⟨2, "b.png", publicUrl "bkt" (uploadFileName 5 "b.png"), 2⟩,
         ⟨1, "a.png", publicUrl "bkt" (uploadFileName 5 "a.png"), 1⟩] ∧
    (sortDesc
        (uploadImage ⟨some "bkt", 5, 3, true, fun _ => true, true, true, true⟩
          (uploadImage ⟨some "bkt", 5, 2, true, fun _ => true, true, true, true⟩
            (uploadImage ⟨some "bkt", 5, 1, true, fun _ => true, true, true, true⟩
              emptyDb ⟨"a.png", "image/png", []⟩).db
            ⟨"b.png", "image/png", []⟩).db
          ⟨"c.png", "image/png", []⟩).db.rows).Pairwise
      (fun a b => b.createdAt < a.createdAt) := by
  constructor
  · decide
  · exact (c6_get_all_sorted_desc envAllOk _ rfl).2.2.2 (by decide)

/-! ### Per-operation call-trace and error-propagation lemmas -/

/-- Upload attempts each external call at most once. -/
theorem uploadImage_calls_nodup (env : Env) (db : Db) (file : MulterFile) :
    (uploadImage env db file).calls.Nodup := by
  unfold uploadImage
  cases hb : env.bucketName <;>
    by_cases hs : env.saveOk = true <;>
    by_cases hc : env.dbCreateOk = true <;>
    simp [hb, hs, hc]

/-- Every upload failure carries the one generic message. -/
theorem uploadImage_error_msg (env : Env) (db : Db) (file : MulterFile)
    (e : String) (he : (uploadImage env db file).res = .error e) :
    e = "Failed to upload image" := by
  cases hb : env.bucketName <;> simp only [uploadImage, hb] at he <;>
    by_cases hs : env.saveOk = true <;>
    by_cases hc : env.dbCreateOk = true <;>
    simp_all

/-- A failing external call during upload fails the upload. -/
theorem uploadImage_fail (env : Env) (db : Db) (file : MulterFile)
    (h : env.saveOk = false ∨ env.dbCreateOk = false) :
    (uploadImage env db file).res = .error "Failed to upload image" := by
  cases hb : env.bucketName
  all_goals simp only [uploadImage, hb]
  all_goals by_cases hs : env.saveOk = true <;>
    by_cases hc : env.dbCreateOk = true <;> simp_all

/-- `getAll` issues exactly the one `findMany` call. -/
theorem getAllImages_calls (env : Env) (db : Db) :
    (getAllImages env db).calls = [Call.dbFindMany] := by
  unfold getAllImages
  split <;> rfl

/-- Every `getAll` failure carries the one generic message. -/
theorem getAllImages_error_msg (env : Env) (db : Db)
    (e : String) (he : (getAllImages env db).res = .error e) :
    e = "Failed to fetch images" := by
  by_cases hf : env.dbFindOk = true <;> simp_all [getAllImages]

/-- A failing metadata read fails `getAll`. -/
theorem getAllImages_fail (env : Env) (db : Db) (hf : env.dbFindOk = false) :
    (getAllImages env db).res = .error "Failed to fetch images" := by
  simp [getAllImages, hf]

/-- `getById` issues exactly the one `findUnique` call. -/
theorem getImageById_calls (env : Env) (db : Db) (id : Int) :
    (getImageById env db id).calls = [Call.dbFindUnique id] := by
  unfold getImageById
  split <;> rfl

/-- Every `getById` failure carries the one generic message. -/
theorem getImageById_error_msg (env : Env) (db : Db) (id : Int)
    (e : String) (he : (getImageById env db id).res = .error e) :
    e = "Failed to fetch image" := by
  by_cases hf : env.dbFindOk = true <;> simp_all [getImageById]

/-- A failing metadata read fails `getById`. -/
theorem getImageById_fail (env : Env) (db : Db) (id : Int)
    (hf : env.dbFindOk = false) :
    (getImageById env db id).res = .error "Failed to fetch image" := by
  simp [getImageById, hf]

/-- Delete attempts each external call at most once. -/
theorem deleteImage_calls_nodup (env : Env) (db : Db) (id : Int) :
    (deleteImage env db id).calls.Nodup := by
  unfold deleteImage
  cases hb : env.bucketName <;> simp [hb]
  by_cases hf : env.dbFindOk = true <;> simp [hf]
  rcases hr : findRow db id with _ | img <;> simp [hr]
  by_cases h1 : jsSplitPop '/' img.url = "" <;>
    by_cases h2 : env.blobDeleteOk (jsSplitPop '/' img.url) = true <;>
    by_cases h3 : env.dbDeleteOk = true <;>
    simp [h1, h2, h3]

/-- Every delete failure carries the one generic message. -/
theorem deleteImage_error_msg (env : Env) (db : Db) (id : Int)
    (e : String) (he : (deleteImage env db id).res = .error e) :
    e = "Failed to delete image" := by
  cases hb : env.bucketName <;> simp only [deleteImage, hb] at he
  all_goals repeat' split at he
  all_goals simp_all

/-- A failing metadata call during delete fails the delete. -/
theorem deleteImage_fail (env : Env) (db : Db) (id : Int)
    (h : env.dbFindOk = false ∨ env.dbDeleteOk = false) :
    (deleteImage env db id).res = .error "Failed to delete image" := by
  cases hb : env.bucketName <;> simp only [deleteImage, hb]
  all_goals repeat' split
  all_goals simp_all

/-- An attempted-and-failed blob deletion fails the delete. -/
theorem deleteImage_blob_fail (env : Env) (db : Db) (id : Int) (fn : String)
    (hmem : Call.blobDelete fn ∈ (deleteImage env db id).calls)
    (hfail : env.blobDeleteOk fn = false) :
    (deleteImage env db id).res = .error "Failed to delete image" := by
  cases hb : env.bucketName <;> simp only [deleteImage, hb] at hmem ⊢
  all_goals repeat' split at hmem
  all_goals simp_all

/-! ### C8 — propagation policy and single attempt -/

/-- C8: in each of the four operations, every external call is attempted
at most once (the call trace has no repeats — no retry exists), every
failure surfaced is the operation's one generic message (nothing escapes
with a detailed signal), and every failing external call makes the whole
operation fail (nothing is silently swallowed): a false success flag for
any attempted call forces the generic error result. -/
theorem c8_generic_propagation_single_attempt (env : Env) (db : Db)
    (file : MulterFile) (id : Int) :
    (uploadImage env db file).calls.Nodup ∧
    (getAllImages env db).calls.Nodup ∧
    (getImageById env db id).calls.Nodup ∧
    (deleteImage env db id).calls.Nodup ∧
    (∀ e, (uploadImage env db file).res = .error e →
      e = "Failed to upload image") ∧
    (∀ e, (getAllImages env db).res = .error e → e = "Failed to fetch images") ∧
    (∀ e, (getImageById env db id).res = .error e → e = "Failed to fetch image") ∧
    (∀ e, (deleteImage env db id).res = .error e → e = "Failed to delete image") ∧
    (env.saveOk = false ∨ env.dbCreateOk = false →
      (uploadImage env db file).res = .error "Failed to upload image") ∧
    (env.dbFindOk = false →
      (getAllImages env db).res = .error "Failed to fetch images") ∧
    (env.dbFindOk = false →
      (getImageById env db id).res = .error "Failed to fetch image") ∧
    (env.dbFindOk = false ∨ env.dbDeleteOk = false →
      (deleteImage env db id).res = .error "Failed to delete image") ∧
    (∀ fn, Call.blobDelete fn ∈ (deleteImage env db id).calls →
      env.blobDeleteOk fn = false →
      (deleteImage env db id).res = .error "Failed to delete image") := by
  refine ⟨uploadImage_calls_nodup env db file,
    by rw [getAllImages_calls]; simp,
    by rw [getImageById_calls]; simp,
    deleteImage_calls_nodup env db id,
    fun e he => uploadImage_error_msg env db file e he,
    fun e he => getAllImages_error_msg env db e he,
    fun e he => getImageById_error_msg env db id e he,
    fun e he => deleteImage_error_msg env db id e he,
    fun h => uploadImage_fail env db file h,
    fun h => getAllImages_fail env db h,
    fun h => getImageById_fail env db id h,
    fun h => deleteImage_fail env db id h,
    fun fn hmem hfail => deleteImage_blob_fail env db id fn hmem hfail⟩

/-- C8 (witness): the statement at concrete environments — a failed blob
write yields the generic upload error, and a concrete delete trace is
duplicate-free. -/
theorem c8_witness :
    (uploadImage envSaveFail emptyDb filePng).res
      = .error "Failed to upload image" ∧
    (deleteImage envAllOk dbOne 1).calls.Nodup := by
  have h := c8_generic_propagation_single_attempt envSaveFail emptyDb filePng 1
  have h2 := c8_generic_propagation_single_attempt envAllOk dbOne filePng 1
  exact ⟨h.2.2.2.2.2.2.2.2.1 (Or.inl rfl), h2.2.2.2.1⟩

/-! ### C9 — no operation mutates an existing record -/

/-- C9: no operation rewrites an existing record. Upload either leaves the
rows unchanged or appends exactly one new record at the end; the two reads
leave the store untouched; delete either leaves the rows unchanged or
removes exactly the records with the requested id. Consequently every
pre-existing record (for delete: every record with a different id)
survives with all its fields intact — records are immutable values in the
store. -/
theorem c9_no_record_mutation (env : Env) (db : Db) (file : MulterFile)
    (id : Int) :
    ((uploadImage env db file).db.rows = db.rows ∨
      ∃ img, (uploadImage env db file).db.rows = db.rows ++ [img]) ∧
    (∀ r, r ∈ db.rows → r ∈ (uploadImage env db file).db.rows) ∧
    (getAllImages env db).db = db ∧
    (getImageById env db id).db = db ∧
    ((deleteImage env db id).db.rows = db.rows ∨
      (deleteImage env db id).db.rows
        = db.rows.filter (fun r => ¬ r.id = id)) ∧
    (∀ r, r ∈ db.rows → ¬ r.id = id → r ∈ (deleteImage env db id).db.rows) := by
  have hup : (uploadImage env db file).db.rows = db.rows ∨
      ∃ img, (uploadImage env db file).db.rows = db.rows ++ [img] := by
    cases hb : env.bucketName <;> simp only [uploadImage, hb]
    · simp
    · repeat' split
      all_goals simp
  have hdel : (deleteImage env db id).db.rows = db.rows ∨
      (deleteImage env db id).db.rows
        = db.rows.filter (fun r => ¬ r.id = id) := by
    cases hb : env.bucketName <;> simp only [deleteImage, hb]
    · simp
    · repeat' split
      all_goals simp
  refine ⟨hup, ?_, ?_, ?_, hdel, ?_⟩
  · intro r hr
    rcases hup with h | ⟨img, h⟩ <;> rw [h]
    · exact hr
    · exact List.mem_append_left _ hr
  · unfold getAllImages
    split <;> rfl
  · unfold getImageById
    split <;> rfl
  · intro r hr hid
    rcases hdel with h | h <;> rw [h]
    · exact hr
    · simp [List.mem_filter, hr, hid]

/-- C9 (witness): reads leave the concrete store untouched, and the
record survives an upload into the store that holds it. -/
theorem c9_witness :
    (getAllImages envAllOk dbOne).db = dbOne ∧
    imgPng ∈ (uploadImage envAllOk dbOne filePng).db.rows := by
  have h := c9_no_record_mutation envAllOk dbOne filePng 1
  exact ⟨h.2.2.1, h.2.1 imgPng (by decide)⟩

/-! ### C10 — id parsing at the controller boundary -/

/-- C10 (counterexample): the claim says a 400 happens only when the
leading characters do not parse as an integer, and that any string with an
integer prefix is treated as that integer. JavaScript `parseInt` detects a
`0x`/`0X` prefix and switches to hexadecimal: `"0xZ"` has the integer
prefix `0` yet both endpoints reject it with 400 (no hex digit follows the
prefix, so `parseInt` yields `NaN`), and `"0x10"` has the integer prefix
`0` yet is looked up as id 16, not 0. -/
theorem c10_counterexample :
    leadingIntVal "0xZ" = some 0 ∧
    (getImageByIdCtrl envAllOk dbOne "0xZ").status = 400 ∧
    (deleteImageCtrl envAllOk dbOne "0xZ").status = 400 ∧
    jsParseInt "0x10" = some 16 ∧
    leadingIntVal "0x10" = some 0 ∧
    (getImageByIdCtrl envAllOk dbOne "0x10").calls = [Call.dbFindUnique 16] := by
  decide

/-- C10 (amended): both id endpoints reject with 400 exactly when
JavaScript `parseInt` yields `NaN` on the path parameter — i.e. when,
after optional whitespace and sign, no decimal digit and no `0x`/`0X`
prefix with a hex digit follows. A parsed value is passed to the service
as the id (`"7abc"` is treated as 7, `"3.9"` as 3), so a string with a
decimal integer prefix is treated as that integer unless it carries a
`0x`/`0X` hex prefix, which `parseInt` reads as hexadecimal instead. -/
theorem c10_parse_int_gate (env : Env) (db : Db) (s : String) :
    ((getImageByIdCtrl env db s).status = 400 ↔ jsParseInt s = none) ∧
    ((deleteImageCtrl env db s).status = 400 ↔ jsParseInt s = none) ∧
    (∀ i, jsParseInt s = some i →
      (getImageByIdCtrl env db s).calls = [Call.dbFindUnique i]) ∧
    (∀ i, jsParseInt s = some i →
      (deleteImageCtrl env db s).calls = (deleteImage env db i).calls) := by
  rcases hp : jsParseInt s with _ | i
  · simp [getImageByIdCtrl, deleteImageCtrl, hp]
  · refine ⟨?_, ?_, ?_, ?_⟩
    · simp only [getImageByIdCtrl, hp]
      rcases hr : (getImageById env db i).res with e | v
      · simp
      · rcases v with _ | img <;> simp
    · simp only [deleteImageCtrl, hp]
      rcases hr : (deleteImage env db i).res with e | v <;> simp
    · intro j hj
      cases hj
      simp only [getImageByIdCtrl, hp]
      rcases hr : (getImageById env db i).res with e | v
      · rw [← getImageById_calls env db i]
      · rcases v with _ | img <;> rw [← getImageById_calls env db i]
    · intro j hj
      cases hj
      simp only [deleteImageCtrl, hp]
      rcases hr : (deleteImage env db i).res with e | v <;> rfl

/-- C10 (witness): `"7abc"` is accepted and looked up as id 7; `"abc"`
is rejected with 400. -/
theorem c10_witness :
    (getImageByIdCtrl envAllOk dbOne "7abc").calls = [Call.dbFindUnique 7] ∧
    (getImageByIdCtrl envAllOk dbOne "abc").status = 400 :=
  ⟨(c10_parse_int_gate envAllOk dbOne "7abc").2.2.1 7 (by decide),
   ((c10_parse_int_gate envAllOk dbOne "abc").1).mpr (by decide)⟩
